import Mathlib

/-!
Shallow embedding of the polygon-zone editor in
`src/components/NewPDFCanvasViewer.tsx` (GraphPDF).

The merge engine (`handleClosePolygon`) and the history manager
(`handleUndo` / `handleRedo`) are embedded over exact rationals; the
external Turf polygon-boolean library is an abstract collaborator,
modelled as a record of fallible operations (`TurfOps`), since any call
into it may throw in JavaScript and the component contains no
try/catch around those calls.  The snapping geometry
(`getSnappedPoint`), which uses `Math.sqrt`, is embedded over the
reals.
-/

namespace GraphPDF

/-- A point `{x, y}` in page-render space (source `interface Point`),
with coordinates modelled as exact rationals. -/
structure Point where
  x : ℚ
  y : ℚ
deriving DecidableEq, Repr

/-- A zone: list of rings, index 0 the outer boundary, the rest holes
(source state `zones: Point[][][]`, one element). -/
abbrev Zone := List (List Point)

/-- The ordered zone set (source state `zones`). -/
abbrev ZoneSet := List Zone

/-- Error thrown by the external polygon-boolean library. -/
structure GeometryError where
  message : String
deriving DecidableEq, Repr

/-- A coordinate pair as handed to the Turf library (`[x, y]`). -/
abbrev Coord := ℚ × ℚ

/-- The external Turf operations used by `handleClosePolygon`.  Each
takes polygons as ring lists (outer first) of coordinate pairs and may
throw.  `difference` yields the ring list of the clipped result
(`clipped.geometry.coordinates`), empty when the result is void. -/
structure TurfOps where
  booleanContains : List (List Coord) → List (List Coord) → Except GeometryError Bool
  booleanIntersects : List (List Coord) → List (List Coord) → Except GeometryError Bool
  difference : List (List Coord) → List (List Coord) → Except GeometryError (List (List Coord))

/-- Source `+v.toFixed(2)`: round a coordinate to 2 decimal places. -/
def roundCoord (q : ℚ) : ℚ :=
  (round (100 * q) : ℤ) / 100

/-- Source `(p) => [+p.x.toFixed(2), +p.y.toFixed(2)]`. -/
def toCoord (p : Point) : Coord :=
  (roundCoord p.x, roundCoord p.y)

/-- Source `([x, y]) => (\x7b x, y \x7d)`: repackage a coordinate pair as a point. -/
def fromCoord (c : Coord) : Point :=
  { x := c.1, y := c.2 }

/-- Ring-closure normalization: if the first and last coordinates
differ, append a copy of the first
(`if (first[0] !== last[0] || first[1] !== last[1]) coords.push([...first])`). -/
def closeRing : List Coord → List Coord
  | [] => []
  | f :: rest =>
    let l := (f :: rest).getLast (List.cons_ne_nil f rest)
    if f.1 ≠ l.1 ∨ f.2 ≠ l.2 then (f :: rest) ++ [f] else f :: rest

/-- The closed, rounded coordinate ring of the just-closed polygon
(local `coords` in `handleClosePolygon`). -/
def newCoords (currentPolygon : List Point) : List Coord :=
  closeRing (currentPolygon.map toCoord)

/-- Source `turfPolygon([coords])`: the new polygon as handed to Turf. -/
def newTurfOf (currentPolygon : List Point) : List (List Coord) :=
  [newCoords currentPolygon]

/-- Source `flatOuter`: an existing zone's outer ring, rounded then closed. -/
def flatOuterOf (zone : Zone) : List Coord :=
  closeRing (zone.headI.map toCoord)

/-- Source `holes`: an existing zone's hole rings, rounded (note: not
re-closed by the source). -/
def holesOf (zone : Zone) : List (List Coord) :=
  zone.tail.map (fun h => h.map toCoord)

/-- Source `turfPolygon([flatOuter, ...holes])`: an existing zone as handed
to Turf. -/
def existingTurfOf (zone : Zone) : List (List Coord) :=
  flatOuterOf zone :: holesOf zone

/-- The zone rewritten by the containment branch: outer ring
rounded-and-closed, old holes rounded, the new polygon's closed ring
appended as the last hole, all mapped back to points. -/
def holeInsertedZone (zone : Zone) (coords : List Coord) : Zone :=
  (flatOuterOf zone).map fromCoord ::
    (holesOf zone ++ [coords]).map (fun hole => hole.map fromCoord)

/-- One iteration of the `for (let zone of zones)` loop in
`handleClosePolygon`: returns the zones pushed onto `updatedZones` for
this zone and whether this zone set `overlapHandled`.  A thrown
exception propagates (modelled by the `Except.error` branches). -/
def processZone (ops : TurfOps) (newTurf : List (List Coord)) (coords : List Coord)
    (zone : Zone) : Except GeometryError (List Zone × Bool) :=
  match ops.booleanContains (existingTurfOf zone) newTurf with
  | .error e => .error e
  | .ok true => .ok ([holeInsertedZone zone coords], true)
  | .ok false =>
    match ops.booleanIntersects (existingTurfOf zone) newTurf with
    | .error e => .error e
    | .ok true =>
      match ops.difference (existingTurfOf zone) newTurf with
      | .error e => .error e
      | .ok clipped =>
        if clipped.length ≠ 0 then
          .ok ([clipped.map (fun ring => ring.map fromCoord)], true)
        else
          .ok ([], true)
    | .ok false => .ok ([zone], false)

/-- The whole `for (let zone of zones)` loop: accumulated
`updatedZones` and the final `overlapHandled` flag. -/
def processZones (ops : TurfOps) (newTurf : List (List Coord)) (coords : List Coord) :
    List Zone → Except GeometryError (List Zone × Bool)
  | [] => .ok ([], false)
  | zone :: rest =>
    match processZone ops newTurf coords zone with
    | .error e => .error e
    | .ok (pushed, handled) =>
      match processZones ops newTurf coords rest with
      | .error e => .error e
      | .ok (restPushed, restHandled) =>
        .ok (pushed ++ restPushed, handled || restHandled)

/-- The component state touched by closure and undo/redo. -/
structure DrawerState where
  currentPolygon : List Point
  zones : ZoneSet
  history : List ZoneSet
  redoStack : List ZoneSet
deriving DecidableEq, Repr

/-- Source `handleClosePolygon`: merge the in-progress polygon into the zone
set, record the prior zone set in history, clear the redo stack and
the current polygon.  Exceptions from the Turf collaborator propagate:
the source contains no try/catch here. -/
def handleClosePolygon (ops : TurfOps) (s : DrawerState) :
    Except GeometryError DrawerState :=
  match processZones ops (newTurfOf s.currentPolygon) (newCoords s.currentPolygon) s.zones with
  | .error e => .error e
  | .ok (updatedZones, overlapHandled) =>
    .ok { currentPolygon := []
          zones :=
            if !overlapHandled then updatedZones ++ [[s.currentPolygon]] else updatedZones
          history := s.history ++ [s.zones]
          redoStack := [] }

/-- Source `handleUndo`: no-op when the history stack is empty, else restore
the most recent snapshot and push the current zones onto the redo
stack (prepended, matching `[zones, ...redoStack]`). -/
def handleUndo (s : DrawerState) : DrawerState :=
  match s.history.getLast? with
  | none => s
  | some previous =>
    { s with
      zones := previous
      history := s.history.dropLast
      redoStack := s.zones :: s.redoStack }

/-- Source `handleRedo`: no-op when the redo stack is empty, else restore the
front redo entry and push the current zones onto the history stack. -/
def handleRedo (s : DrawerState) : DrawerState :=
  match s.redoStack with
  | [] => s
  | next :: rest =>
    { s with
      zones := next
      history := s.history ++ [s.zones]
      redoStack := rest }

/-!
Snapping geometry.  `getSnappedPoint` works on raw click coordinates
with `Math.sqrt`; it is embedded over the reals.
-/

/-- A point as used by the snapping code, over ℝ. -/
structure RPoint where
  x : ℝ
  y : ℝ

/-- Source `const SNAP_THRESHOLD = 10`. -/
def SNAP_THRESHOLD : ℝ := 10

/-- Source `distance(a, b)`: Euclidean distance. -/
noncomputable def distance (a b : RPoint) : ℝ :=
  Real.sqrt ((a.x - b.x) ^ 2 + (a.y - b.y) ^ 2)

/-- The loop body of the vertex scan in `getSnappedPoint`: update the
running `(minDist, nearest)` pair with one vertex. -/
noncomputable def snapStep (point : RPoint) (acc : ℝ × Option RPoint) (vertex : RPoint) :
    ℝ × Option RPoint :=
  if distance point vertex < acc.1 then (distance point vertex, some vertex) else acc

/-- The triple loop of `getSnappedPoint` over zones, rings and
vertices, with `minDist` initialized to `SNAP_THRESHOLD` and `nearest`
to `null`. -/
noncomputable def snapScan (zones : List (List (List RPoint))) (point : RPoint) :
    ℝ × Option RPoint :=
  zones.foldl
    (fun acc zone =>
      zone.foldl (fun acc ring => ring.foldl (snapStep point) acc) acc)
    (SNAP_THRESHOLD, none)

/-- Source `getSnappedPoint`: if a vertex closer than the threshold was found,
return the candidate pulled to offset 1 from that vertex along the
candidate→vertex line (`length` falls back to 1 when the JS value
`Math.sqrt(...)` is `0`, i.e. falsy); otherwise return the candidate
unchanged. -/
noncomputable def getSnappedPoint (zones : List (List (List RPoint))) (point : RPoint) :
    RPoint :=
  match (snapScan zones point).2 with
  | none => point
  | some nearest =>
    let dx := point.x - nearest.x
    let dy := point.y - nearest.y
    let length := if Real.sqrt (dx ^ 2 + dy ^ 2) = 0 then 1 else Real.sqrt (dx ^ 2 + dy ^ 2)
    let offset : ℝ := 1
    { x := nearest.x + dx / length * offset
      y := nearest.y + dy / length * offset }

/-!
Concrete fixtures used by counterexamples and witnesses: Turf oracles
with fixed answers, and small concrete zones and polygons.
-/

/-- Oracle reporting every pair of polygons disjoint. -/
def noOps : TurfOps where
  booleanContains := fun _ _ => .ok false
  booleanIntersects := fun _ _ => .ok false
  difference := fun _ _ => .ok []

/-- Oracle reporting that the existing polygon contains the new one. -/
def containsOps : TurfOps where
  booleanContains := fun _ _ => .ok true
  booleanIntersects := fun _ _ => .ok false
  difference := fun _ _ => .ok []

/-- Oracle reporting an intersection whose difference splits into two
rings. -/
def splitOps : TurfOps where
  booleanContains := fun _ _ => .ok false
  booleanIntersects := fun _ _ => .ok true
  difference := fun _ _ =>
    .ok [[(0, 0), (5, 0), (5, 5), (0, 5), (0, 0)],
         [(6, 0), (8, 0), (8, 2), (6, 2), (6, 0)]]

/-- Oracle reporting an intersection whose difference is void (the new
polygon fully covers the existing zone). -/
def coverOps : TurfOps where
  booleanContains := fun _ _ => .ok false
  booleanIntersects := fun _ _ => .ok true
  difference := fun _ _ => .ok []

/-- Oracle throwing on the first boolean call, as Turf does on
degenerate input. -/
def throwOps : TurfOps where
  booleanContains := fun _ _ => .error { message := "degenerate polygon" }
  booleanIntersects := fun _ _ => .error { message := "degenerate polygon" }
  difference := fun _ _ => .error { message := "degenerate polygon" }

/-- Oracle whose difference result carries a coordinate with three
decimal places, as clipping intersection points generically do. -/
def rawDiffOps : TurfOps where
  booleanContains := fun _ _ => .ok false
  booleanIntersects := fun _ _ => .ok true
  difference := fun _ _ =>
    .ok [[(1234 / 1000, 0), (2, 0), (2, 2), (1234 / 1000, 0)]]

/-- An unclosed 10×10 square outer ring, as the disjoint branch stores
it. -/
def squareA : List Point :=
  [⟨0, 0⟩, ⟨10, 0⟩, ⟨10, 10⟩, ⟨0, 10⟩]

/-- An in-progress 2×2 square polygon. -/
def squareB : List Point :=
  [⟨2, 2⟩, ⟨4, 2⟩, ⟨4, 4⟩, ⟨2, 4⟩]

/-- Shorthand for "the Turf oracle classifies `zone` as disjoint from
the new polygon": containment and intersection both answer `false`
without throwing. -/
def DisjointFor (ops : TurfOps) (newTurf : List (List Coord)) (zone : Zone) : Prop :=
  ops.booleanContains (existingTurfOf zone) newTurf = .ok false ∧
  ops.booleanIntersects (existingTurfOf zone) newTurf = .ok false

/-!
Helper lemmas about the merge loop.
-/

theorem distance_nonneg (a b : RPoint) : 0 ≤ distance a b :=
  Real.sqrt_nonneg _

theorem processZone_of_disjoint (ops : TurfOps) (newTurf : List (List Coord))
    (coords : List Coord) (zone : Zone) (h : DisjointFor ops newTurf zone) :
    processZone ops newTurf coords zone = .ok ([zone], false) := by
  rw [processZone, h.1, h.2]

theorem processZone_of_contains (ops : TurfOps) (newTurf : List (List Coord))
    (coords : List Coord) (zone : Zone)
    (hc : ops.booleanContains (existingTurfOf zone) newTurf = .ok true) :
    processZone ops newTurf coords zone = .ok ([holeInsertedZone zone coords], true) := by
  rw [processZone, hc]

theorem processZone_of_diff (ops : TurfOps) (newTurf : List (List Coord))
    (coords : List Coord) (zone : Zone) (rs : List (List Coord))
    (hc : ops.booleanContains (existingTurfOf zone) newTurf = .ok false)
    (hi : ops.booleanIntersects (existingTurfOf zone) newTurf = .ok true)
    (hd : ops.difference (existingTurfOf zone) newTurf = .ok rs) (hne : rs ≠ []) :
    processZone ops newTurf coords zone =
      .ok ([rs.map (fun ring => ring.map fromCoord)], true) := by
  rw [processZone, hc, hi, hd]
  simp [List.length_eq_zero, hne]

theorem processZone_of_diff_empty (ops : TurfOps) (newTurf : List (List Coord))
    (coords : List Coord) (zone : Zone)
    (hc : ops.booleanContains (existingTurfOf zone) newTurf = .ok false)
    (hi : ops.booleanIntersects (existingTurfOf zone) newTurf = .ok true)
    (hd : ops.difference (existingTurfOf zone) newTurf = .ok []) :
    processZone ops newTurf coords zone = .ok ([], true) := by
  rw [processZone, hc, hi, hd]
  simp

theorem processZone_of_throw (ops : TurfOps) (newTurf : List (List Coord))
    (coords : List Coord) (zone : Zone) (e : GeometryError)
    (he : ops.booleanContains (existingTurfOf zone) newTurf = .error e) :
    processZone ops newTurf coords zone = .error e := by
  rw [processZone, he]

theorem processZones_of_disjoint (ops : TurfOps) (newTurf : List (List Coord))
    (coords : List Coord) (zs : List Zone) (h : ∀ z ∈ zs, DisjointFor ops newTurf z) :
    processZones ops newTurf coords zs = .ok (zs, false) := by
  induction zs with
  | nil => rfl
  | cons z rest ih =>
    rw [processZones, processZone_of_disjoint ops newTurf coords z (h z (List.mem_cons_self z rest)),
      ih (fun w hw => h w (List.mem_cons_of_mem z hw))]
    rfl

theorem processZones_sandwich (ops : TurfOps) (newTurf : List (List Coord))
    (coords : List Coord) (zs1 zs2 : List Zone) (z : Zone) (res : List Zone) (flag : Bool)
    (h1 : ∀ w ∈ zs1, DisjointFor ops newTurf w) (h2 : ∀ w ∈ zs2, DisjointFor ops newTurf w)
    (hz : processZone ops newTurf coords z = .ok (res, flag)) :
    processZones ops newTurf coords (zs1 ++ z :: zs2) = .ok (zs1 ++ res ++ zs2, flag) := by
  induction zs1 with
  | nil =>
    rw [List.nil_append, processZones, hz, processZones_of_disjoint ops newTurf coords zs2 h2]
    simp
  | cons w ws ih =>
    rw [List.cons_append, processZones,
      processZone_of_disjoint ops newTurf coords w (h1 w (List.mem_cons_self w ws)),
      ih (fun u hu => h1 u (List.mem_cons_of_mem w hu))]
    simp

theorem handleClosePolygon_of_processZones (ops : TurfOps) (s : DrawerState)
    (uz : List Zone) (flag : Bool)
    (hp : processZones ops (newTurfOf s.currentPolygon) (newCoords s.currentPolygon) s.zones =
      .ok (uz, flag)) :
    handleClosePolygon ops s =
      .ok { currentPolygon := []
            zones := if !flag then uz ++ [[s.currentPolygon]] else uz
            history := s.history ++ [s.zones]
            redoStack := [] } := by
  rw [handleClosePolygon, hp]

theorem handleClosePolygon_ok_shape (ops : TurfOps) (s s' : DrawerState)
    (h : handleClosePolygon ops s = .ok s') :
    s'.currentPolygon = [] ∧ s'.history = s.history ++ [s.zones] ∧ s'.redoStack = [] := by
  rw [handleClosePolygon] at h
  cases hp : processZones ops (newTurfOf s.currentPolygon) (newCoords s.currentPolygon) s.zones with
  | error e =>
    rw [hp] at h
    exact absurd h (by simp)
  | ok p =>
    obtain ⟨uz, flag⟩ := p
    rw [hp] at h
    rw [Except.ok.injEq] at h
    subst h
    exact ⟨rfl, rfl, rfl⟩

/-- C7: when the Turf oracle classifies the new polygon as neither
contained in nor intersecting any existing zone, the merge output is
the input zone set unchanged, in order, with the raw current polygon
appended at the end as a single-ring zone with no holes; its size is
exactly the input size plus one. -/
theorem disjoint_growth (ops : TurfOps) (s : DrawerState)
    (h : ∀ z ∈ s.zones, DisjointFor ops (newTurfOf s.currentPolygon) z) :
    handleClosePolygon ops s =
      .ok { currentPolygon := []
            zones := s.zones ++ [[s.currentPolygon]]
            history := s.history ++ [s.zones]
            redoStack := [] } ∧
    (s.zones ++ [[s.currentPolygon]]).length = s.zones.length + 1 := by
  refine ⟨?_, by simp⟩
  rw [handleClosePolygon,
    processZones_of_disjoint ops (newTurfOf s.currentPolygon) (newCoords s.currentPolygon)
      s.zones h]
  rfl

/-- Witness for `disjoint_growth` on a concrete one-zone state. -/
theorem disjoint_growth_witness :
    handleClosePolygon noOps
        { currentPolygon := squareB, zones := [[squareA]], history := [], redoStack := [] } =
      Except.ok { currentPolygon := []
                  zones := [[squareA], [squareB]]
                  history := [[[squareA]]]
                  redoStack := [] } ∧
    ([[squareA], [squareB]] : ZoneSet).length = 2 := by
  have h := disjoint_growth noOps
    { currentPolygon := squareB, zones := [[squareA]], history := [], redoStack := [] }
    (fun z _ => ⟨rfl, rfl⟩)
  exact ⟨h.1, rfl⟩

/-- C8: undo with an empty history stack and redo with an empty redo
stack are no-ops: the whole state, zone set and both stacks included,
is returned unchanged. -/
theorem empty_stack_noop (s : DrawerState) :
    (s.history = [] → handleUndo s = s) ∧ (s.redoStack = [] → handleRedo s = s) := by
  constructor
  · intro h
    simp [handleUndo, h]
  · intro h
    simp [handleRedo, h]

/-- Witness for `empty_stack_noop` on a concrete state. -/
theorem empty_stack_noop_witness :
    handleUndo { currentPolygon := [], zones := [[squareA]], history := [], redoStack := [] } =
      { currentPolygon := [], zones := [[squareA]], history := [], redoStack := [] } ∧
    handleRedo { currentPolygon := [], zones := [[squareA]], history := [], redoStack := [] } =
      { currentPolygon := [], zones := [[squareA]], history := [], redoStack := [] } := by
  have h := empty_stack_noop
    { currentPolygon := [], zones := [[squareA]], history := [], redoStack := [] }
  exact ⟨h.1 rfl, h.2 rfl⟩

/-- C9: every successful closure pushes exactly one snapshot — the
pre-merge zone set — onto the history stack and empties the redo
stack. -/
theorem close_pushes_snapshot (ops : TurfOps) (s s' : DrawerState)
    (h : handleClosePolygon ops s = .ok s') :
    s'.history = s.history ++ [s.zones] ∧
    s'.history.length = s.history.length + 1 ∧
    s'.redoStack = [] := by
  obtain ⟨-, hh, hr⟩ := handleClosePolygon_ok_shape ops s s' h
  exact ⟨hh, by rw [hh]; simp, hr⟩

/-- Witness for `close_pushes_snapshot` on a concrete closure. -/
theorem close_pushes_snapshot_witness :
    ([[[squareA]]] ++ [[[squareA]]] : List ZoneSet) =
      [[[squareA]]] ++ [[[squareA]]] ∧
    (handleClosePolygon noOps
      { currentPolygon := squareB, zones := [[squareA]], history := [[[squareA]]],
        redoStack := [[[squareB]]] } =
      Except.ok { currentPolygon := []
                  zones := [[squareA], [squareB]]
                  history := [[[squareA]], [[squareA]]]
                  redoStack := [] }) ∧
    ([[[squareA]], [[squareA]]] : List ZoneSet).length = 1 + 1 := by
  have hclose : handleClosePolygon noOps
      { currentPolygon := squareB, zones := [[squareA]], history := [[[squareA]]],
        redoStack := [[[squareB]]] } =
      Except.ok { currentPolygon := []
                  zones := [[squareA], [squareB]]
                  history := [[[squareA]], [[squareA]]]
                  redoStack := [] } := rfl
  have h := close_pushes_snapshot noOps
    { currentPolygon := squareB, zones := [[squareA]], history := [[[squareA]]],
      redoStack := [[[squareB]]] }
    { currentPolygon := []
      zones := [[squareA], [squareB]]
      history := [[[squareA]], [[squareA]]]
      redoStack := [] } hclose
  exact ⟨rfl, hclose, h.2.1⟩

/-- C5: undo immediately after a successful closure restores the zone
set that existed immediately before that closure, and a subsequent
redo restores the undone zone set, both as exact values. -/
theorem undo_redo_round_trip (ops : TurfOps) (s s' : DrawerState)
    (h : handleClosePolygon ops s = .ok s') :
    (handleUndo s').zones = s.zones ∧
    (handleRedo (handleUndo s')).zones = s'.zones := by
  obtain ⟨-, hh, hr⟩ := handleClosePolygon_ok_shape ops s s' h
  have hundo : handleUndo s' =
      { s' with zones := s.zones, history := s.history, redoStack := [s'.zones] } := by
    rw [handleUndo]
    rw [hh, hr, List.getLast?_concat, List.dropLast_concat]
  rw [hundo]
  exact ⟨rfl, rfl⟩

/-- Witness for `undo_redo_round_trip` on a concrete closure. -/
theorem undo_redo_round_trip_witness :
    (handleUndo
      { currentPolygon := [], zones := [[squareB]], history := [[]], redoStack := [] }).zones =
      ([] : ZoneSet) ∧
    (handleRedo (handleUndo
      { currentPolygon := [], zones := [[squareB]], history := [[]], redoStack := [] })).zones =
      [[squareB]] := by
  exact undo_redo_round_trip noOps
    { currentPolygon := squareB, zones := [], history := [], redoStack := [] }
    { currentPolygon := [], zones := [[squareB]], history := [[]], redoStack := [] }
    rfl

/-- C6: when the new polygon intersects an existing zone and the
difference yields zero rings, that zone is dropped from the output:
no replacement zone is produced for it and the new polygon is not
appended either, the other zones passing through unchanged. -/
theorem full_coverage_removal (ops : TurfOps) (s : DrawerState)
    (zs1 zs2 : List Zone) (z : Zone)
    (hzones : s.zones = zs1 ++ z :: zs2)
    (h1 : ∀ w ∈ zs1, DisjointFor ops (newTurfOf s.currentPolygon) w)
    (h2 : ∀ w ∈ zs2, DisjointFor ops (newTurfOf s.currentPolygon) w)
    (hc : ops.booleanContains (existingTurfOf z) (newTurfOf s.currentPolygon) = .ok false)
    (hi : ops.booleanIntersects (existingTurfOf z) (newTurfOf s.currentPolygon) = .ok true)
    (hd : ops.difference (existingTurfOf z) (newTurfOf s.currentPolygon) = .ok []) :
    handleClosePolygon ops s =
      .ok { currentPolygon := []
            zones := zs1 ++ zs2
            history := s.history ++ [s.zones]
            redoStack := [] } := by
  have hz := processZone_of_diff_empty ops (newTurfOf s.currentPolygon)
    (newCoords s.currentPolygon) z hc hi hd
  rw [handleClosePolygon, hzones,
    processZones_sandwich ops (newTurfOf s.currentPolygon) (newCoords s.currentPolygon)
      zs1 zs2 z [] true h1 h2 hz]
  simp

/-- Witness for `full_coverage_removal` on a concrete one-zone state. -/
theorem full_coverage_removal_witness :
    handleClosePolygon coverOps
        { currentPolygon := squareB, zones := [[squareA]], history := [], redoStack := [] } =
      Except.ok { currentPolygon := []
                  zones := []
                  history := [[[squareA]]]
                  redoStack := [] } := by
  have h := full_coverage_removal coverOps
    { currentPolygon := squareB, zones := [[squareA]], history := [], redoStack := [] }
    [] [] [squareA] rfl (by simp) (by simp) rfl rfl rfl
  exact h

/-- C2 counterexample: a difference result of two rings is stored as
one single output zone holding both rings, not as two separate
output zones (one per ring) as the claim states. -/
theorem difference_fragments_one_zone_cex :
    handleClosePolygon splitOps
        { currentPolygon := squareB, zones := [[squareA]], history := [], redoStack := [] } =
      Except.ok { currentPolygon := []
                  zones := [[[⟨0, 0⟩, ⟨5, 0⟩, ⟨5, 5⟩, ⟨0, 5⟩, ⟨0, 0⟩],
                             [⟨6, 0⟩, ⟨8, 0⟩, ⟨8, 2⟩, ⟨6, 2⟩, ⟨6, 0⟩]]]
                  history := [[[squareA]]]
                  redoStack := [] } ∧
    ([[[⟨0, 0⟩, ⟨5, 0⟩, ⟨5, 5⟩, ⟨0, 5⟩, ⟨0, 0⟩],
       [⟨6, 0⟩, ⟨8, 0⟩, ⟨8, 2⟩, ⟨6, 2⟩, ⟨6, 0⟩]]] : ZoneSet) ≠
      [[[⟨0, 0⟩, ⟨5, 0⟩, ⟨5, 5⟩, ⟨0, 5⟩, ⟨0, 0⟩]],
       [[⟨6, 0⟩, ⟨8, 0⟩, ⟨8, 2⟩, ⟨6, 2⟩, ⟨6, 0⟩]]] := by
  constructor
  · rfl
  · simp

/-- C2 amended: when the oracle reports intersection (not containment)
for one zone and every other zone is disjoint, the intersecting zone
is replaced in place by ONE output zone whose ring list is exactly the
ring list returned by difference, repackaged as points. -/
theorem difference_replaces_with_single_zone (ops : TurfOps) (s : DrawerState)
    (zs1 zs2 : List Zone) (z : Zone) (rs : List (List Coord))
    (hzones : s.zones = zs1 ++ z :: zs2)
    (h1 : ∀ w ∈ zs1, DisjointFor ops (newTurfOf s.currentPolygon) w)
    (h2 : ∀ w ∈ zs2, DisjointFor ops (newTurfOf s.currentPolygon) w)
    (hc : ops.booleanContains (existingTurfOf z) (newTurfOf s.currentPolygon) = .ok false)
    (hi : ops.booleanIntersects (existingTurfOf z) (newTurfOf s.currentPolygon) = .ok true)
    (hd : ops.difference (existingTurfOf z) (newTurfOf s.currentPolygon) = .ok rs)
    (hne : rs ≠ []) :
    handleClosePolygon ops s =
      .ok { currentPolygon := []
            zones := zs1 ++ (rs.map (fun ring => ring.map fromCoord)) :: zs2
            history := s.history ++ [s.zones]
            redoStack := [] } := by
  have hz := processZone_of_diff ops (newTurfOf s.currentPolygon)
    (newCoords s.currentPolygon) z rs hc hi hd hne
  rw [handleClosePolygon, hzones,
    processZones_sandwich ops (newTurfOf s.currentPolygon) (newCoords s.currentPolygon)
      zs1 zs2 z _ true h1 h2 hz]
  simp

/-- Witness for `difference_replaces_with_single_zone` on a concrete
one-zone state whose difference splits into two rings. -/
theorem difference_replaces_with_single_zone_witness :
    handleClosePolygon splitOps
        { currentPolygon := squareB, zones := [[squareA]], history := [[]],
          redoStack := [] } =
      Except.ok { currentPolygon := []
                  zones := [[[⟨0, 0⟩, ⟨5, 0⟩, ⟨5, 5⟩, ⟨0, 5⟩, ⟨0, 0⟩],
                             [⟨6, 0⟩, ⟨8, 0⟩, ⟨8, 2⟩, ⟨6, 2⟩, ⟨6, 0⟩]]]
                  history := [[], [[squareA]]]
                  redoStack := [] } := by
  have h := difference_replaces_with_single_zone splitOps
    { currentPolygon := squareB, zones := [[squareA]], history := [[]],
      redoStack := [] }
    [] [] [squareA]
    [[(0, 0), (5, 0), (5, 5), (0, 5), (0, 0)], [(6, 0), (8, 0), (8, 2), (6, 2), (6, 0)]]
    rfl (by simp) (by simp) rfl rfl rfl
    (by simp)
  exact h

/-- C3 counterexample: the containment branch does not leave the outer
ring bit-for-bit unchanged — the stored outer ring is the
rounded-and-closed version, which differs from the original unclosed
ring. -/
theorem containment_outer_changed_cex :
    handleClosePolygon containsOps
        { currentPolygon := squareB, zones := [[squareA]], history := [], redoStack := [] } =
      Except.ok { currentPolygon := []
                  zones := [[[⟨0, 0⟩, ⟨10, 0⟩, ⟨10, 10⟩, ⟨0, 10⟩, ⟨0, 0⟩],
                             [⟨2, 2⟩, ⟨4, 2⟩, ⟨4, 4⟩, ⟨2, 4⟩, ⟨2, 2⟩]]]
                  history := [[[squareA]]]
                  redoStack := [] } ∧
    ([⟨0, 0⟩, ⟨10, 0⟩, ⟨10, 10⟩, ⟨0, 10⟩, ⟨0, 0⟩] : List Point) ≠ squareA := by
  constructor
  · simp [handleClosePolygon, processZones, processZone, containsOps, holeInsertedZone,
      flatOuterOf, holesOf, newCoords, toCoord, fromCoord, closeRing, squareA, squareB,
      roundCoord]
    norm_num [round_eq, fromCoord, Prod.fst_zero, Prod.snd_zero, Point.mk.injEq]
  · simp [squareA]

/-- C3 amended: when the oracle reports containment for one zone and
every other zone is disjoint, that zone is rewritten with its outer
ring rounded to 2 decimals and explicitly closed, its old holes
rounded (in order), and the rounded closed new polygon appended as the
last hole. -/
theorem containment_hole_appended (ops : TurfOps) (s : DrawerState)
    (zs1 zs2 : List Zone) (z : Zone)
    (hzones : s.zones = zs1 ++ z :: zs2)
    (h1 : ∀ w ∈ zs1, DisjointFor ops (newTurfOf s.currentPolygon) w)
    (h2 : ∀ w ∈ zs2, DisjointFor ops (newTurfOf s.currentPolygon) w)
    (hc : ops.booleanContains (existingTurfOf z) (newTurfOf s.currentPolygon) = .ok true) :
    handleClosePolygon ops s =
      .ok { currentPolygon := []
            zones := zs1 ++
              ((flatOuterOf z).map fromCoord ::
                ((holesOf z).map (fun hole => hole.map fromCoord) ++
                  [(newCoords s.currentPolygon).map fromCoord])) :: zs2
            history := s.history ++ [s.zones]
            redoStack := [] } := by
  have hz := processZone_of_contains ops (newTurfOf s.currentPolygon)
    (newCoords s.currentPolygon) z hc
  rw [handleClosePolygon, hzones,
    processZones_sandwich ops (newTurfOf s.currentPolygon) (newCoords s.currentPolygon)
      zs1 zs2 z _ true h1 h2 hz]
  simp [holeInsertedZone]

/-- Witness for `containment_hole_appended` on a concrete one-zone
state, fully evaluated. -/
theorem containment_hole_appended_witness :
    handleClosePolygon containsOps
        { currentPolygon := squareB, zones := [[squareA]], history := [], redoStack := [] } =
      Except.ok { currentPolygon := []
                  zones := [[[⟨0, 0⟩, ⟨10, 0⟩, ⟨10, 10⟩, ⟨0, 10⟩, ⟨0, 0⟩],
                             [⟨2, 2⟩, ⟨4, 2⟩, ⟨4, 4⟩, ⟨2, 4⟩, ⟨2, 2⟩]]]
                  history := [[[squareA]]]
                  redoStack := [] } := by
  have h := containment_hole_appended containsOps
    { currentPolygon := squareB, zones := [[squareA]], history := [], redoStack := [] }
    [] [] [squareA] rfl (by simp) (by simp) rfl
  rw [h]
  simp [flatOuterOf, holesOf, newCoords, toCoord, closeRing, squareA, squareB, roundCoord]
  norm_num [round_eq, fromCoord, Prod.fst_zero, Prod.snd_zero, Point.mk.injEq]

/-- C4 counterexample: when the boolean library throws, the exception
propagates out of `handleClosePolygon`; the new polygon is not
appended as a disjoint zone. -/
theorem merge_error_propagates_cex :
    handleClosePolygon throwOps
        { currentPolygon := squareB, zones := [[squareA]], history := [], redoStack := [] } =
      Except.error { message := "degenerate polygon" } := rfl

/-- C4 amended: there is no catch at the merge boundary — a throw from
the boolean library while processing a zone propagates out of
`handleClosePolygon` unchanged, and no fallback disjoint append
happens. -/
theorem merge_error_propagates (ops : TurfOps) (s : DrawerState)
    (z : Zone) (rest : List Zone) (e : GeometryError)
    (hzones : s.zones = z :: rest)
    (he : ops.booleanContains (existingTurfOf z) (newTurfOf s.currentPolygon) = .error e) :
    handleClosePolygon ops s = .error e := by
  rw [handleClosePolygon, hzones, processZones,
    processZone_of_throw ops (newTurfOf s.currentPolygon) (newCoords s.currentPolygon) z e he]

/-- Witness for `merge_error_propagates` on a concrete two-zone
state. -/
theorem merge_error_propagates_witness :
    handleClosePolygon throwOps
        { currentPolygon := squareB, zones := [[squareA], [squareB]], history := [],
          redoStack := [] } =
      Except.error { message := "degenerate polygon" } := by
  exact merge_error_propagates throwOps
    { currentPolygon := squareB, zones := [[squareA], [squareB]], history := [],
      redoStack := [] }
    [squareA] [[squareB]] { message := "degenerate polygon" } rfl rfl

/-- C10 counterexample: a zone rewritten by the intersection branch
stores the difference output verbatim — here a ring whose first
coordinate 1.234 is not a 2-decimal value (its 2-decimal rounding is
1.23), refuting the claim that rewritten zones store
rounded-to-2-decimals rings. -/
theorem diff_output_not_rounded_cex :
    handleClosePolygon rawDiffOps
        { currentPolygon := squareB, zones := [[squareA]], history := [], redoStack := [] } =
      Except.ok { currentPolygon := []
                  zones := [[[⟨1234 / 1000, 0⟩, ⟨2, 0⟩, ⟨2, 2⟩, ⟨1234 / 1000, 0⟩]]]
                  history := [[[squareA]]]
                  redoStack := [] } ∧
    roundCoord (1234 / 1000) ≠ 1234 / 1000 := by
  constructor
  · rfl
  · rw [roundCoord, round_eq]
    norm_num

/-- C10 amended: normalization is not uniform — the intersection
branch stores the difference output rings verbatim (plain coordinate
repackaging, no rounding or closing applied by the component), while
the disjoint branch appends the raw in-progress polygon exactly as a
single-ring zone; rounding and closing are applied to the coordinate
lists handed to the boolean library. -/
theorem normalization_not_uniform (ops1 ops2 : TurfOps) (s1 s2 : DrawerState)
    (z1 : Zone) (rs : List (List Coord))
    (h1zones : s1.zones = [z1])
    (hc1 : ops1.booleanContains (existingTurfOf z1) (newTurfOf s1.currentPolygon) = .ok false)
    (hi1 : ops1.booleanIntersects (existingTurfOf z1) (newTurfOf s1.currentPolygon) = .ok true)
    (hd1 : ops1.difference (existingTurfOf z1) (newTurfOf s1.currentPolygon) = .ok rs)
    (hne : rs ≠ [])
    (h2 : ∀ z ∈ s2.zones, DisjointFor ops2 (newTurfOf s2.currentPolygon) z) :
    handleClosePolygon ops1 s1 =
      .ok { currentPolygon := []
            zones := [rs.map (fun ring => ring.map fromCoord)]
            history := s1.history ++ [s1.zones]
            redoStack := [] } ∧
    handleClosePolygon ops2 s2 =
      .ok { currentPolygon := []
            zones := s2.zones ++ [[s2.currentPolygon]]
            history := s2.history ++ [s2.zones]
            redoStack := [] } := by
  constructor
  · have hz := processZone_of_diff ops1 (newTurfOf s1.currentPolygon)
      (newCoords s1.currentPolygon) z1 rs hc1 hi1 hd1 hne
    have hzones' : s1.zones = [] ++ z1 :: [] := h1zones
    rw [handleClosePolygon, hzones',
      processZones_sandwich ops1 (newTurfOf s1.currentPolygon) (newCoords s1.currentPolygon)
        [] [] z1 _ true (by simp) (by simp) hz]
    simp
  · rw [handleClosePolygon,
      processZones_of_disjoint ops2 (newTurfOf s2.currentPolygon)
        (newCoords s2.currentPolygon) s2.zones h2]
    rfl

/-- Witness for `normalization_not_uniform` on concrete states: the
unrounded difference ring is stored verbatim, and the raw polygon is
appended by the disjoint branch. -/
theorem normalization_not_uniform_witness :
    handleClosePolygon rawDiffOps
        { currentPolygon := squareB, zones := [[squareA]], history := [],
          redoStack := [[[squareB]]] } =
      Except.ok { currentPolygon := []
                  zones := [[[⟨1234 / 1000, 0⟩, ⟨2, 0⟩, ⟨2, 2⟩, ⟨1234 / 1000, 0⟩]]]
                  history := [[[squareA]]]
                  redoStack := [] } ∧
    handleClosePolygon noOps
        { currentPolygon := squareB, zones := [[squareA]], history := [],
          redoStack := [[[squareB]]] } =
      Except.ok { currentPolygon := []
                  zones := [[squareA], [squareB]]
                  history := [[[squareA]]]
                  redoStack := [] } := by
  have h := normalization_not_uniform rawDiffOps noOps
    { currentPolygon := squareB, zones := [[squareA]], history := [],
      redoStack := [[[squareB]]] }
    { currentPolygon := squareB, zones := [[squareA]], history := [],
      redoStack := [[[squareB]]] }
    [squareA]
    [[(1234 / 1000, 0), (2, 0), (2, 2), (1234 / 1000, 0)]]
    rfl rfl rfl rfl (by simp) (fun z _ => ⟨rfl, rfl⟩)
  exact h

/-- C1 (code-bug evaluation): with a zone whose vertices are (5,5),
(20,5), (20,20), snapping the candidate P = (5,5) — which coincides
with the nearest vertex V = (5,5), at distance 0 < 10 — returns V
itself, at distance 0 from V rather than the claimed exact distance
1: the `length || 1` fallback only avoids division by zero, it does
not move the result off the vertex. -/
theorem snap_at_vertex_returns_vertex :
    getSnappedPoint [[[⟨5, 5⟩, ⟨20, 5⟩, ⟨20, 20⟩]]] ⟨5, 5⟩ = ⟨5, 5⟩ ∧
    distance (getSnappedPoint [[[⟨5, 5⟩, ⟨20, 5⟩, ⟨20, 20⟩]]] ⟨5, 5⟩) ⟨5, 5⟩ = 0 ∧
    distance (⟨5, 5⟩ : RPoint) ⟨5, 5⟩ < SNAP_THRESHOLD := by
  have hd0 : distance (⟨5, 5⟩ : RPoint) ⟨5, 5⟩ = 0 := by
    simp [distance]
  have s1 : snapStep ⟨5, 5⟩ (SNAP_THRESHOLD, none) ⟨5, 5⟩ = (0, some ⟨5, 5⟩) := by
    rw [snapStep, hd0]
    norm_num [SNAP_THRESHOLD]
  have s2 : snapStep ⟨5, 5⟩ ((0 : ℝ), some (⟨5, 5⟩ : RPoint)) ⟨20, 5⟩ =
      ((0 : ℝ), some (⟨5, 5⟩ : RPoint)) := by
    rw [snapStep, if_neg]
    exact not_lt.mpr (distance_nonneg _ _)
  have s3 : snapStep ⟨5, 5⟩ ((0 : ℝ), some (⟨5, 5⟩ : RPoint)) ⟨20, 20⟩ =
      ((0 : ℝ), some (⟨5, 5⟩ : RPoint)) := by
    rw [snapStep, if_neg]
    exact not_lt.mpr (distance_nonneg _ _)
  have hscan : snapScan [[[⟨5, 5⟩, ⟨20, 5⟩, ⟨20, 20⟩]]] ⟨5, 5⟩ = (0, some ⟨5, 5⟩) := by
    rw [snapScan]
    simp only [List.foldl_cons, List.foldl_nil]
    rw [s1, s2, s3]
  have hmain : getSnappedPoint [[[⟨5, 5⟩, ⟨20, 5⟩, ⟨20, 20⟩]]] ⟨5, 5⟩ = ⟨5, 5⟩ := by
    rw [getSnappedPoint, hscan]
    norm_num
  refine ⟨hmain, ?_, ?_⟩
  · rw [hmain, hd0]
  · rw [hd0, SNAP_THRESHOLD]
    norm_num

end GraphPDF
